import Mathlib

/-!
Shallow embedding of the HVAC analysis pipeline
(`hvac_ai_agent/agents/analyzer.py`, `diagnostic.py`, `forecaster.py`,
`optimizer.py` and the `AnalyzerAgent` of `app.py`).

Conventions of the embedding:
* a pandas scalar is a rational; the float `NaN` is modelled as `Option.none`
  (IEEE comparisons with `NaN` are false, which matches `Option`-guarded
  comparisons below);
* a raw cell carries the two parse results the pandas parsers
  (`pd.to_datetime(errors="coerce")`, `pd.to_numeric(errors="coerce")`)
  would produce on it, since string parsing itself is library code;
* timestamps are integers (hours since an epoch), `dt.hour` is `ts % 24`
  and `dt.dayofweek` is `(ts / 24) % 7` in euclidean arithmetic;
* `pandas.sort_values` is modelled by a stable insertion sort on the
  timestamp key;
* the fitted scikit-learn linear model, the training-feature medians and
  the inferred sampling frequency are parameters of the forecaster
  embedding (they are produced by library code, not by this repository);
* the `IsolationForest` ensemble is an opaque row scorer, as the spec's
  design notes prescribe.
-/

namespace HVAC

/-! ### Column-name folding (`analyzer._normalize_columns`) -/

/-- Separator replacement, modelling `.replace(" ", "_").replace("-", "_")`
applied characterwise (both patterns are single characters). -/
def sepChar (c : Char) : Char := if c = ' ' ∨ c = '-' then '_' else c

/-- Left trim of a character list. -/
def trimLeft (l : List Char) : List Char := l.dropWhile Char.isWhitespace

/-- Right trim of a character list. -/
def trimRight (l : List Char) : List Char := (l.reverse.dropWhile Char.isWhitespace).reverse

/-- Models Python `str.strip()` on the character list. -/
def trimBoth (l : List Char) : List Char := trimRight (trimLeft l)

/-- Models `col.strip().lower().replace(" ", "_").replace("-", "_")` on the
character list of a column name. -/
def foldChars (l : List Char) : List Char := ((trimBoth l).map Char.toLower).map sepChar

/-- The column-name folding of `_normalize_columns`, before the alias lookup. -/
def foldName (s : String) : String := String.mk (foldChars s.data)

/-- The `ALIAS_MAP` lookup: known synonyms map to canonical names, any other
name passes through unchanged. -/
def aliasMap (s : String) : String :=
  if s = "time" ∨ s = "date" ∨ s = "datetime" then ("timestamp")
  else if s = "energy" ∨ s = "energy_kwh" ∨ s = "energy_consumption" ∨ s = "kwh_consumption" then ("kwh")
  else if s = "ikwtr" ∨ s = "ikw_per_tr" ∨ s = "kw_per_tr" then ("ikw_tr")
  else if s = "ambient_temperature" ∨ s = "outdoor_temp" ∨ s = "outside_temp" ∨ s = "temperature" then ("ambient_temp")
  else if s = "occupancy" ∨ s = "load" then ("load_profile")
  else s

/-- Full canonicalisation of one column name, as in `_normalize_columns`. -/
def canonName (s : String) : String := aliasMap (foldName s)

/-- Non-whitespace at both ends of a character list (`Option`-safe). -/
def NoWsEnds (l : List Char) : Prop :=
  (∀ c ∈ l.head?, c.isWhitespace = false) ∧ (∀ c ∈ l.getLast?, c.isWhitespace = false)

/-! ### Raw and cleaned tables (`analyzer.prepare_dataframe`) -/

/-- A raw cell, carrying the parse results pandas coercion would give:
`tsVal` is the `pd.to_datetime(errors="coerce")` result (`none` = `NaT`),
`numVal` is the `pd.to_numeric(errors="coerce")` result (`none` = `NaN`). -/
structure Cell where
  tsVal : Option Int
  numVal : Option ℚ
deriving DecidableEq

/-- A raw two-dimensional table with a header row. -/
structure RawTable where
  header : List String
  rows : List (List Cell)
deriving DecidableEq

/-- `NUMERIC_COLUMNS` of `analyzer.py`. -/
def NUMERIC_COLUMNS : List String := ["kwh", "ikw_tr", "ambient_temp", "load_profile"]

/-- Errors of the normalisation stage (the `ValueError`s of `analyzer.py`,
the spec's `SchemaError`). -/
inductive SchemaError where
  | missingTimestamp
  | missingCoreParams
deriving DecidableEq

/-- Everything the normalisation stage can fail with: the two deliberate
`SchemaError`s of `analyzer.py`, and the pandas exception that escapes when
two raw columns fold to the same canonical label — `df["timestamp"]` is
then a two-column DataFrame and `pd.to_datetime` raises, and likewise a
duplicated core column makes `pd.to_numeric(df[col])` raise a `TypeError`. -/
inductive PrepError where
  | schema (e : SchemaError)
  | pandasDup (name : String)
deriving DecidableEq

/-- The cleaned table produced by `prepare_dataframe`: the canonical header,
the position of the timestamp column, and the rows keyed by their parsed
timestamp (ascending). -/
structure CleanTable where
  header : List String
  tsIdx : Nat
  rows : List (Int × List Cell)
deriving DecidableEq

/-- Decidable equality of `Except` results (for concrete evaluation). -/
instance exceptDecEq {e a : Type} [DecidableEq e] [DecidableEq a] :
    DecidableEq (Except e a) := fun x y =>
  match x, y with
  | .ok u, .ok v => decidable_of_iff (u = v) (by simp)
  | .error u, .error v => decidable_of_iff (u = v) (by simp)
  | .ok _, .error _ => isFalse (fun hc => Except.noConfusion hc)
  | .error _, .ok _ => isFalse (fun hc => Except.noConfusion hc)

/-- Order on keyed rows used by `sort_values("timestamp")`. -/
def keyLe (a b : Int × List Cell) : Prop := a.1 ≤ b.1

instance : DecidableRel keyLe := fun a b => inferInstanceAs (Decidable (a.1 ≤ b.1))

instance : IsTotal (Int × List Cell) keyLe := ⟨fun a b => Int.le_total a.1 b.1⟩

instance : IsTrans (Int × List Cell) keyLe := ⟨fun _ _ _ hab hbc => le_trans hab hbc⟩

/-- `pandas.sort_values(kind="quicksort")` as the library specifies it: the
result is sorted by the timestamp key and is a permutation of the input —
nothing more. numpy's quicksort is not stable, so the order of rows with
equal timestamps is *not* pinned by the program; the embedding therefore
treats the sort as any conforming implementation and quantifies theorems
over it. -/
structure SortValues where
  sort : List (Int × List Cell) → List (Int × List Cell)
  sort_sorted : ∀ l, List.Sorted keyLe (sort l)
  sort_perm : ∀ l, List.Perm (sort l) l

/-- One conforming `sort_values` implementation (stable); used to
instantiate witnesses at concrete inputs. -/
def stableSort : SortValues :=
  ⟨List.insertionSort keyLe,
    fun l => List.sorted_insertionSort keyLe l,
    fun l => List.perm_insertionSort keyLe l⟩

/-- Another conforming `sort_values` implementation, one that presents rows
with equal timestamps in the opposite relative order (an order an unstable
quicksort is free to produce); exhibits the tie-order freedom the program
leaves open. -/
def revTieSort : SortValues :=
  ⟨fun l => List.insertionSort keyLe l.reverse,
    fun l => List.sorted_insertionSort keyLe l.reverse,
    fun l => (List.perm_insertionSort keyLe l.reverse).trans l.reverse_perm⟩

/-- The first canonical label whose duplication makes pandas raise, in the
order the code hits them: the timestamp column first (`pd.to_datetime` on
`df["timestamp"]`), then the core columns in `NUMERIC_COLUMNS` order
(`pd.to_numeric` on `df[col]`). -/
def dupLabel (hdr : List String) : Option String :=
  if 2 ≤ hdr.count "timestamp" then some "timestamp"
  else NUMERIC_COLUMNS.find? fun c => 2 ≤ hdr.count c

/-- No canonical label the pipeline touches is duplicated in the header. -/
def NoDupLabels (hdr : List String) : Prop :=
  hdr.count "timestamp" < 2 ∧ ∀ c ∈ NUMERIC_COLUMNS, hdr.count c < 2

instance (hdr : List String) : Decidable (NoDupLabels hdr) :=
  inferInstanceAs (Decidable (_ ∧ _))

/-- `prepare_dataframe`: fold/alias the header, require a timestamp column,
parse timestamps (raising the pandas duplicate-label error when two raw
columns folded to `timestamp`), drop rows whose timestamp is missing or
unparsable, sort ascending by timestamp with the given conforming sort,
and coerce the core columns (raising the pandas duplicate-label error when
one of them is duplicated; otherwise the coercion is represented by reading
`numVal` downstream). -/
def prepare_dataframe (sv : SortValues) (t : RawTable) : Except PrepError CleanTable :=
  let hdr := t.header.map canonName
  match hdr.findIdx? (fun s => s = "timestamp") with
  | none => .error (.schema .missingTimestamp)
  | some i =>
      match dupLabel hdr with
      | some c => .error (.pandasDup c)
      | none =>
          let keyed := t.rows.filterMap fun r =>
            match (r[i]?).bind Cell.tsVal with
            | some ts => some (ts, r.set i ⟨some ts, none⟩)
            | none => none
          .ok ⟨hdr, i, sv.sort keyed⟩

/-- Reinject a cleaned table as a raw table (what feeding the output of the
normaliser back into it means: parsed timestamps re-parse to themselves,
numeric values re-coerce to themselves). -/
def toRaw (c : CleanTable) : RawTable := ⟨c.header, c.rows.map Prod.snd⟩

/-- The canonical numeric columns present in a header. -/
def availableCoreOf (hdr : List String) : List String :=
  NUMERIC_COLUMNS.filter (fun c => hdr.contains c)

/-- The core-parameter gate at the top of `analyze_data`: at least 3 of the
4 canonical core parameters must be present. -/
def coreCheck (c : CleanTable) : Except PrepError CleanTable :=
  if (availableCoreOf c.header).length < 3 then .error (.schema .missingCoreParams)
  else .ok c

/-- The spec's `normalize`: `prepare_dataframe` followed by the
core-parameter gate (the failing prefix of `analyze_data`). -/
def normalize (sv : SortValues) (t : RawTable) : Except PrepError CleanTable :=
  prepare_dataframe sv t >>= coreCheck

/-! ### The cleaned frame seen by the downstream agents -/

/-- The cleaned data as the downstream agents read it: the timestamp column
and the four canonical numeric columns (`none` at the outer level = column
absent, `none` at an entry = `NaN`). -/
structure Frame where
  ts : List Int
  kwh : Option (List (Option ℚ))
  ikw_tr : Option (List (Option ℚ))
  ambient_temp : Option (List (Option ℚ))
  load_profile : Option (List (Option ℚ))
deriving DecidableEq

/-- First column of a clean table with the given (canonical) name, read
through the numeric coercion. -/
def numCol (c : CleanTable) (name : String) : Option (List (Option ℚ)) :=
  (c.header.findIdx? (fun s => s = name)).map fun j =>
    c.rows.map fun r => (r.2[j]?).bind Cell.numVal

/-- Extract the frame of canonical columns from a clean table. -/
def toFrame (c : CleanTable) : Frame :=
  ⟨c.rows.map Prod.fst, numCol c ("kwh"), numCol c ("ikw_tr"),
    numCol c ("ambient_temp"), numCol c ("load_profile")⟩

/-- Look a canonical column up in a frame. -/
def frameCol (fr : Frame) (name : String) : Option (List (Option ℚ)) :=
  if name = "kwh" then fr.kwh
  else if name = "ikw_tr" then fr.ikw_tr
  else if name = "ambient_temp" then fr.ambient_temp
  else if name = "load_profile" then fr.load_profile
  else none

/-- `available_core_params` of `analyze_data`. -/
def availableCore (fr : Frame) : List String :=
  NUMERIC_COLUMNS.filter (fun c => (frameCol fr c).isSome)

/-- Row count of a frame (the length of the pandas index). -/
def nRows (fr : Frame) : Nat := fr.ts.length

/-- Entry `i` of an optional column (`none` when the column is absent, the
entry is `NaN`, or the index is out of range). -/
def colAt (col : Option (List (Option ℚ))) (i : Nat) : Option ℚ :=
  (col.getD []).getD i none

/-! ### Means, variances, interpolation and median (pandas statistics) -/

/-- Total mean (`0` on the empty list; only ever read when the list is
known nonempty or the result is multiplied into a guarded comparison). -/
def meanD (l : List ℚ) : ℚ := l.sum / l.length

/-- Mean with pandas `NaN` semantics: `none` on the empty list. -/
def meanOpt (l : List ℚ) : Option ℚ :=
  if l.length = 0 then none else some (meanD l)

/-- Mean of a column, skipping `NaN` entries (pandas `skipna=True`). -/
def colMean (l : List (Option ℚ)) : Option ℚ := meanOpt (l.filterMap id)

/-- Population variance (`ddof=0`) of the valid entries; `0` when empty
(matching the convention that the zscore guard then yields no flags). -/
def varD (l : List ℚ) : ℚ := meanD (l.map fun x => (x - meanD l) ^ 2)

/-- pandas `Series.median` of the valid entries: mean of the two middle
order statistics (`none` when no valid entry exists). -/
def medianOpt (l : List ℚ) : Option ℚ :=
  let s := List.insertionSort (fun a b : ℚ => a ≤ b) l
  if s.length = 0 then none
  else if s.length % 2 = 1 then s[s.length / 2]?
  else do
    let a ← s[s.length / 2 - 1]?
    let b ← s[s.length / 2]?
    pure ((a + b) / 2)

/-- The last valid entry strictly before index `k`, with its index. -/
def prevValid (l : List (Option ℚ)) (k : Nat) : Option (Nat × ℚ) :=
  (List.range k).reverse.findSome? fun j => (l.getD j none).map fun v => (j, v)

/-- The first valid entry strictly after index `k`, with its index. -/
def nextValid (l : List (Option ℚ)) (k : Nat) : Option (Nat × ℚ) :=
  ((List.range l.length).drop (k + 1)).findSome? fun j => (l.getD j none).map fun v => (j, v)

/-- `Series.interpolate(limit_direction="both")` with the default linear
method: gaps between two valid observations are filled linearly in the
index, leading gaps take the first valid value, trailing gaps the last
valid value; an all-`NaN` column stays `NaN`. -/
def interpolate (l : List (Option ℚ)) : List (Option ℚ) :=
  (List.range l.length).map fun k =>
    match l.getD k none with
    | some v => some v
    | none =>
      match prevValid l k, nextValid l k with
      | some (j1, v1), some (j2, v2) =>
          some (v1 + (v2 - v1) * ((k : ℚ) - (j1 : ℚ)) / ((j2 : ℚ) - (j1 : ℚ)))
      | some (_, v1), none => some v1
      | none, some (_, v2) => some v2
      | none, none => none

/-- `interpolate(...)` then `fillna(median)` as in `analyze_data`. -/
def fillColumn (l : List (Option ℚ)) : List (Option ℚ) :=
  let li := interpolate l
  match medianOpt (li.filterMap id) with
  | none => li
  | some m => li.map fun x => some (x.getD m)

/-- The gap-repair loop of `analyze_data` over the available columns. -/
def fillFrame (fr : Frame) : Frame :=
  ⟨fr.ts, fr.kwh.map fillColumn, fr.ikw_tr.map fillColumn,
    fr.ambient_temp.map fillColumn, fr.load_profile.map fillColumn⟩

/-! ### KPI and correlation engine (`analyze_data`) -/

/-- The KPI set of `analyze_data` (`none` = the `NaN` marker for an absent
column or an undefined mean). -/
structure Kpis where
  records : Nat
  avg_kwh : Option ℚ
  peak_kwh : Option ℚ
  avg_ikw_tr : Option ℚ
  avg_ambient_temp : Option ℚ
deriving DecidableEq

/-- The KPI block of `analyze_data`. -/
def computeKpis (fr : Frame) : Kpis :=
  ⟨nRows fr,
    fr.kwh.bind colMean,
    fr.kwh.bind fun c => (c.filterMap id).max?,
    fr.ikw_tr.bind colMean,
    fr.ambient_temp.bind colMean⟩

/-- A non-`NaN` Pearson correlation value, kept in exact form: the value is
`num / Real.sqrt den2` with `den2 > 0`; in particular it equals `0.0`
exactly when `num = 0`. -/
structure CorrVal where
  num : ℚ
  den2 : ℚ
deriving DecidableEq

/-- Pairwise-complete observations of two columns (pandas `DataFrame.corr`
drops a row for a pair when either entry is `NaN`). -/
def corrPairs (xs ys : List (Option ℚ)) : List (ℚ × ℚ) :=
  (xs.zip ys).filterMap fun p =>
    match p.1, p.2 with
    | some a, some b => some (a, b)
    | _, _ => none

/-- Sum of squared deviations of the first series over the pairs. -/
def corrSxx (xs ys : List (Option ℚ)) : ℚ :=
  let p := corrPairs xs ys
  (p.map fun q => (q.1 - meanD (p.map Prod.fst)) ^ 2).sum

/-- Sum of squared deviations of the second series over the pairs. -/
def corrSyy (xs ys : List (Option ℚ)) : ℚ :=
  let p := corrPairs xs ys
  (p.map fun q => (q.2 - meanD (p.map Prod.snd)) ^ 2).sum

/-- Pearson correlation of two columns as pandas computes it: `none` is the
`NaN` the float formula produces when there are no pairs or when either
series has zero variance over the pairs (the denominator is then `0`). -/
def corrKwh (xs ys : List (Option ℚ)) : Option CorrVal :=
  let p := corrPairs xs ys
  if p.length = 0 then none
  else if corrSxx xs ys = 0 ∨ corrSyy xs ys = 0 then none
  else
    let mx := meanD (p.map Prod.fst)
    let my := meanD (p.map Prod.snd)
    some ⟨(p.map fun q => (q.1 - mx) * (q.2 - my)).sum, corrSxx xs ys * corrSyy xs ys⟩

/-- The correlation block of `analyze_data`: the `corr()` column of `kwh`,
with the `kwh` label dropped; empty when `kwh` is not among the available
parameters. -/
def computeCorrelations (fr : Frame) : List (String × Option CorrVal) :=
  match fr.kwh with
  | none => []
  | some kc =>
      ((availableCore fr).filter (fun c => c ≠ "kwh")).map fun c =>
        (c, corrKwh kc ((frameCol fr c).getD []))

/-- The result record of `analyze_data`. -/
structure AnalysisResult where
  cleaned : Frame
  available_core_params : List String
  kpis : Kpis
  correlations : List (String × Option CorrVal)
deriving DecidableEq

/-- `analyze_data`: normalise, gate on the core parameters, repair gaps,
then compute KPIs and correlations on the repaired frame. -/
def analyze_data (sv : SortValues) (t : RawTable) : Except PrepError AnalysisResult := do
  let c ← normalize sv t
  let fr := fillFrame (toFrame c)
  pure ⟨fr, availableCore (toFrame c), computeKpis fr, computeCorrelations fr⟩

/-! ### Diagnostic agent (`diagnostic.run_diagnostics`) -/

/-- The Method-B ensemble (`IsolationForest(contamination=0.05,
random_state=42).fit_predict`) as an opaque deterministic row scorer, per
the spec's design note; the library guarantees one score per input row. -/
structure OutlierScorer where
  score : List (List (Option ℚ)) → List Bool
  score_length : ∀ m, (score m).length = m.length

/-- The statistical-threshold flag of `_zscore` at cutoff `t` for entry `i`
of the energy column: `|z_i| > t` expressed squarefree over the population
variance (`(v - μ)² > t²·var`); a `NaN` entry never flags, and a
zero-variance or empty column never flags, exactly as the float code
behaves (`_zscore` returns all zeros there). -/
def zFlag (t : ℚ) (col : List (Option ℚ)) (i : Nat) : Bool :=
  match col.getD i none with
  | some v =>
      let valid := col.filterMap id
      decide ((v - meanD valid) ^ 2 > t ^ 2 * varD valid)
  | none => false

/-- The feature matrix `work_df[feature_cols]` handed to Method B. -/
def featureMatrix (fr : Frame) : List (List (Option ℚ)) :=
  (List.range (nRows fr)).map fun i =>
    ((availableCore fr).map fun c => colAt (frameCol fr c) i)

/-- Baseline window mean of the efficiency ratio: the earliest
`max 5 (n // 5)` rows. -/
def baselineMean (fr : Frame) : Option ℚ :=
  colMean (((fr.ikw_tr).getD []).take (max 5 (nRows fr / 5)))

/-- Recent window mean of the efficiency ratio: the latest
`max 5 (n // 5)` rows. -/
def recentMean (fr : Frame) : Option ℚ :=
  let l := (fr.ikw_tr).getD []
  colMean (l.drop (l.length - max 5 (nRows fr / 5)))

/-- The summary dict of `run_diagnostics` (`none` = `NaN`). -/
structure DiagSummary where
  anomaly_count : Nat
  anomaly_pct : Option ℚ
  efficiency_degradation_pct : Option ℚ
deriving DecidableEq

/-- The result of `run_diagnostics`: the combined per-row anomaly flags and
the summary. -/
structure DiagResult where
  flags : List Bool
  summary : DiagSummary
deriving DecidableEq

/-- `run_diagnostics`: Method A (`|z| > 3.0` on `kwh`), Method B (the
ensemble, only when at least 2 core parameters and at least 20 rows),
combined by OR; plus the guarded efficiency-degradation percentage. -/
def run_diagnostics (sc : OutlierScorer) (fr : Frame) : DiagResult :=
  let n := nRows fr
  let zv : Nat → Bool := fun i =>
    match fr.kwh with
    | some col => zFlag 3 col i
    | none => false
  let iso : List Bool :=
    if 2 ≤ (availableCore fr).length ∧ 20 ≤ n then sc.score (featureMatrix fr)
    else List.replicate n false
  let flags := (List.range n).map fun i => zv i || iso.getD i false
  let degradation : Option ℚ :=
    if fr.ikw_tr.isSome ∧ 10 ≤ n then
      match baselineMean fr with
      | some b =>
          if b > 0 then
            match recentMean fr with
            | some r => some ((r - b) / b * 100)
            | none => none
          else some 0
      | none => some 0
    else some 0
  let count := flags.count true
  ⟨flags, ⟨count, if n = 0 then none else some ((count : ℚ) / (n : ℚ) * 100), degradation⟩⟩

/-! ### Demand forecaster (`forecaster.forecast_demand`) -/

/-- One row of the forecaster's working table. -/
structure FRow where
  ts : Int
  kwh : Option ℚ
  ambient : Option ℚ
  load : Option ℚ
deriving DecidableEq

/-- Errors of the forecast stage (both `ValueError`s of `forecast_demand`;
the spec folds them into `InsufficientDataError`). -/
inductive FcError where
  | missingKwh
  | insufficientData
deriving DecidableEq

/-- Everything the projection loop threads: column presence, the fitted
linear model (coefficients aligned with the feature vector, plus
intercept), the training-feature medians used as fill defaults, and the
inferred sampling interval. The model, medians and interval are parameters
of the embedding because scikit-learn/pandas produce them. -/
structure StepCfg where
  hasAmb : Bool
  hasLoad : Bool
  coef : List ℚ
  intercept : ℚ
  defaults : List ℚ
  freq : Int
deriving DecidableEq

/-- Row order used by `sort_values("timestamp")` in the forecaster. -/
def rowLe (a b : FRow) : Prop := a.ts ≤ b.ts

instance : DecidableRel rowLe := fun a b => inferInstanceAs (Decidable (a.ts ≤ b.ts))

instance : IsTotal FRow rowLe := ⟨fun a b => Int.le_total a.ts b.ts⟩

instance : IsTrans FRow rowLe := ⟨fun _ _ _ hab hbc => le_trans hab hbc⟩

/-- The frame as a list of forecaster rows (columns aligned on the index). -/
def frameRows (fr : Frame) : List FRow :=
  (List.range (nRows fr)).map fun i =>
    ⟨fr.ts.getD i 0, colAt fr.kwh i, colAt fr.ambient_temp i, colAt fr.load_profile i⟩

/-- `_build_features` for row `i`: hour, day-of-week, `kwh` lagged 1 and 24
steps, plus `ambient_temp` and `load_profile` when those columns exist.
A lag reaching before the start of the series is `NaN`. -/
def featVec (cfg : StepCfg) (rows : List FRow) (i : Nat) : List (Option ℚ) :=
  match rows[i]? with
  | none => []
  | some r =>
      [some ((r.ts.emod 24 : Int) : ℚ), some (((r.ts.ediv 24).emod 7 : Int) : ℚ),
        if i = 0 then none else (rows[i - 1]?).bind FRow.kwh,
        if i < 24 then none else (rows[i - 24]?).bind FRow.kwh]
      ++ (if cfg.hasAmb then [r.ambient] else [])
      ++ (if cfg.hasLoad then [r.load] else [])

/-- The training mask of `forecast_demand`: rows whose feature vector has
no missing component. -/
def usableIdx (cfg : StepCfg) (rows : List FRow) : List Nat :=
  (List.range rows.length).filter fun i => (featVec cfg rows i).all Option.isSome

/-- Mean of the last 24 observed values of a column of the working table
(pandas `iloc[-24:].mean()`, skipping `NaN`). -/
def last24Mean (f : FRow → Option ℚ) (rows : List FRow) : Option ℚ :=
  colMean ((rows.drop (rows.length - 24)).map f)

/-- One iteration of the projection loop: advance the timestamp by the
inferred interval, synthesize the exogenous columns as the mean of the last
24 values of the extended history, build and default-fill the feature
vector, predict, clamp at `0`, and append the predicted row. Returns the
extended history and the emitted `(timestamp, pred_kwh)` pair. -/
def projectStep (cfg : StepCfg) (hist : List FRow) : List FRow × (Int × ℚ) :=
  let nextTs := ((hist.getLast?).map FRow.ts).getD 0 + cfg.freq
  let ambV := if cfg.hasAmb then last24Mean FRow.ambient hist else none
  let loadV := if cfg.hasLoad then last24Mean FRow.load hist else none
  let h1 := hist ++ [⟨nextTs, none, ambV, loadV⟩]
  let feats := featVec cfg h1 (h1.length - 1)
  let filled := feats.zipWith (fun f d => f.getD d) cfg.defaults
  let pred := (filled.zipWith (fun x c => x * c) cfg.coef).sum + cfg.intercept
  let kwhV := max pred 0
  (hist ++ [⟨nextTs, some kwhV, ambV, loadV⟩], (nextTs, kwhV))

/-- The iterative multi-step projection: `n` repetitions of `projectStep`,
collecting the emitted future rows in order. -/
def projectLoop (cfg : StepCfg) (hist : List FRow) : Nat → List FRow × List (Int × ℚ)
  | 0 => (hist, [])
  | n + 1 =>
      let s := projectStep cfg hist
      let rest := projectLoop cfg s.1 n
      (rest.1, s.2 :: rest.2)

/-- The extended history after `i` projection steps. -/
def histAfter (cfg : StepCfg) (hist : List FRow) (i : Nat) : List FRow :=
  (projectLoop cfg hist i).1

/-- `forecast_demand`: require the energy column, sort the working table by
timestamp, require at least 30 usable training rows, then run the
projection loop for the requested horizon. `coef`, `intercept` and
`defaults` stand for the fitted model and the training medians, `freq` for
`pd.infer_freq` (`none` falls back to one hour). -/
def forecast_demand (coef : List ℚ) (intercept : ℚ) (defaults : List ℚ)
    (freq : Option Int) (fr : Frame) (horizon : Nat) :
    Except FcError (List (Int × ℚ)) :=
  if fr.kwh.isNone then .error .missingKwh
  else
    let rows := List.insertionSort rowLe (frameRows fr)
    let cfg : StepCfg :=
      ⟨fr.ambient_temp.isSome, fr.load_profile.isSome, coef, intercept, defaults, freq.getD 1⟩
    if (usableIdx cfg rows).length < 30 then .error .insufficientData
    else .ok (projectLoop cfg rows horizon).2

/-- The usable-row count of the claim, defined for every frame: rows of the
sorted working table whose feature vector is complete (for a frame without
an energy column no row is usable, since the lag features cannot exist). -/
def usableRows (fr : Frame) : Nat :=
  let rows := List.insertionSort rowLe (frameRows fr)
  let cfg : StepCfg := ⟨fr.ambient_temp.isSome, fr.load_profile.isSome, [], 0, [], 1⟩
  (usableIdx cfg rows).length

/-! ### The `AnalyzerAgent` of `app.py` (sensitivity-tiered Method A) -/

/-- The sensitivity→cutoff map of `AnalyzerAgent.__init__`
(`{"Low": 2.7, "Medium": 2.3, "High": 1.9}.get(sensitivity, 2.3)`). -/
def zThreshold (s : String) : ℚ :=
  if s = "Low" then 27 / 10
  else if s = "Medium" then 23 / 10
  else if s = "High" then 19 / 10
  else 23 / 10

/-- The per-row anomaly flags of `AnalyzerAgent.run`:
`|kWh_z| > z_threshold` with the same `NaN`/zero-variance float semantics
as `zFlag`. -/
def analyzerFlags (s : String) (col : List (Option ℚ)) : List Bool :=
  (List.range col.length).map fun i => zFlag (zThreshold s) col i

/-! ### Recommendation engine (`optimizer.generate_recommendations`) -/

/-- The recommendation messages, one constructor per branch of
`generate_recommendations` (the English text is presentation). -/
inductive Rec where
  | forecastHigh
  | forecastBaseline
  | efficiencyAbove (val : ℚ)
  | efficiencyOk (val : Option ℚ)
  | anomaliesFound (n : Nat)
  | noAnomalies
deriving DecidableEq

/-- `generate_recommendations`, with its inputs projected to what the code
reads: `summary.get("avg_kwh", 0.0)`, the `forecast_kWh` column, the
`iKW_TR` column of the full table, `len(anomalies_df)` and the efficiency
threshold (default `1.2`). `forecast_avg` and `recent_eff` are `NaN`-aware
means; a comparison against `NaN` is false. -/
def generate_recommendations (avg_kwh : ℚ) (forecastVals : List (Option ℚ))
    (fullIkw : List (Option ℚ)) (anomalyCount : Nat) (effThreshold : ℚ) : List Rec :=
  let forecast_avg : Option ℚ :=
    if forecastVals.length = 0 then some avg_kwh else colMean forecastVals
  let recent_eff : Option ℚ := colMean (fullIkw.drop (fullIkw.length - 24))
  let r1 :=
    if (forecast_avg.map fun fa => decide (fa > avg_kwh * (11 / 10))).getD false
    then Rec.forecastHigh else Rec.forecastBaseline
  let r2 :=
    match recent_eff with
    | some re => if re > effThreshold then Rec.efficiencyAbove re else Rec.efficiencyOk (some re)
    | none => Rec.efficiencyOk none
  let r3 := if anomalyCount > 0 then Rec.anomaliesFound anomalyCount else Rec.noAnomalies
  [r1, r2, r3]

/-- The "a rule fired" conditions of the three if-branches. -/
def recRulesFire (avg_kwh : ℚ) (forecastVals : List (Option ℚ))
    (fullIkw : List (Option ℚ)) (anomalyCount : Nat) (effThreshold : ℚ) : Prop :=
  (((if forecastVals.length = 0 then some avg_kwh else colMean forecastVals).map
      fun fa => decide (fa > avg_kwh * (11 / 10))).getD false = true)
  ∨ (((colMean (fullIkw.drop (fullIkw.length - 24))).map
      fun re => decide (re > effThreshold)).getD false = true)
  ∨ anomalyCount > 0

/-! ### Concrete data used by witnesses and counterexamples -/

/-- A small raw table with messy column names, an unparsable timestamp row
and out-of-order timestamps. -/
def sampleRaw : RawTable :=
  ⟨["Timestamp", "kWh", "iKW-TR", "Ambient Temperature"],
    [[⟨some 5, none⟩, ⟨none, some 10⟩, ⟨none, some 1⟩, ⟨none, some 30⟩],
      [⟨none, none⟩, ⟨none, some 11⟩, ⟨none, some 1⟩, ⟨none, some 29⟩],
      [⟨some 3, none⟩, ⟨none, some 12⟩, ⟨none, some (3 / 2)⟩, ⟨none, some 28⟩]]⟩

/-- The cleaned table `sampleRaw` normalizes to. -/
def sampleClean : CleanTable :=
  ⟨["timestamp", "kwh", "ikw_tr", "ambient_temp"], 0,
    [(3, [⟨some 3, none⟩, ⟨none, some 12⟩, ⟨none, some (3 / 2)⟩, ⟨none, some 28⟩]),
      (5, [⟨some 5, none⟩, ⟨none, some 10⟩, ⟨none, some 1⟩, ⟨none, some 30⟩])]⟩

/-- A raw table whose `Date` and `Time` columns both fold to `timestamp`
(both synonyms are in `ALIAS_MAP`), with all four core parameters present:
real pandas raises out of `pd.to_datetime` on the duplicated label here. -/
def dupTsRaw : RawTable :=
  ⟨["Date", "Time", "kWh", "iKW-TR", "Ambient Temperature"],
    [[⟨some 1, none⟩, ⟨some 1, none⟩, ⟨none, some 10⟩, ⟨none, some 1⟩, ⟨none, some 30⟩]]⟩

/-- A raw table that passes normalization and has two rows with the same
timestamp but different contents (the tie the sort order does not pin). -/
def dupKeyRaw : RawTable :=
  ⟨["timestamp", "kwh", "ikw_tr", "ambient_temp"],
    [[⟨some 0, none⟩, ⟨none, some 1⟩, ⟨none, some 1⟩, ⟨none, some 1⟩],
      [⟨some 0, none⟩, ⟨none, some 2⟩, ⟨none, some 2⟩, ⟨none, some 2⟩]]⟩

/-- `dupKeyRaw` cleaned with the tied rows in reversed input order. -/
def dupKeyCleanA : CleanTable :=
  ⟨["timestamp", "kwh", "ikw_tr", "ambient_temp"], 0,
    [(0, [⟨some 0, none⟩, ⟨none, some 2⟩, ⟨none, some 2⟩, ⟨none, some 2⟩]),
      (0, [⟨some 0, none⟩, ⟨none, some 1⟩, ⟨none, some 1⟩, ⟨none, some 1⟩])]⟩

/-- `dupKeyRaw` cleaned with the tied rows in input order. -/
def dupKeyCleanB : CleanTable :=
  ⟨["timestamp", "kwh", "ikw_tr", "ambient_temp"], 0,
    [(0, [⟨some 0, none⟩, ⟨none, some 1⟩, ⟨none, some 1⟩, ⟨none, some 1⟩]),
      (0, [⟨some 0, none⟩, ⟨none, some 2⟩, ⟨none, some 2⟩, ⟨none, some 2⟩])]⟩

/-- The records the tiered statistical-threshold method of `AnalyzerAgent`
flags: indices of the energy column with `|z|` above the tier's cutoff. -/
def flaggedRecords (s : String) (col : List (Option ℚ)) : List Nat :=
  (List.range col.length).filter fun i => zFlag (zThreshold s) col i

/-- The trivial ensemble (flags nothing); used to instantiate witnesses. -/
def trivialScorer : OutlierScorer :=
  ⟨fun m => m.map fun _ => false, fun m => by simp⟩

/-- A 54-row hourly frame with a constant energy column and no exogenous
columns; it has exactly 30 usable training rows. -/
def horizonFrame : Frame :=
  ⟨(List.range 54).map fun i => (i : Int),
    some (List.replicate 54 (some 1)), none, none, none⟩

/-- A 54-row hourly frame whose ambient column is `0` except for `24` at
the last observed row (last-24 input mean `1`), and whose load column is
`0` except for `48` at the last observed row (last-24 input mean `2`). -/
def exoFrame : Frame :=
  ⟨(List.range 54).map fun i => (i : Int),
    some (List.replicate 54 (some 1)), none,
    some ((List.replicate 53 (some (0 : ℚ))) ++ [some 24]),
    some ((List.replicate 53 (some (0 : ℚ))) ++ [some 48])⟩

/-- The sorted working table `forecast_demand` builds from `exoFrame`. -/
def exoHist : List FRow := List.insertionSort rowLe (frameRows exoFrame)

/-- The step configuration `forecast_demand [] 0 [] none exoFrame _` uses. -/
def exoCfg : StepCfg := ⟨true, true, [], 0, [], 1⟩

/-- A 3-row frame whose energy column is constant (zero variance) while
`ambient_temp` varies; 3 core parameters are available. -/
def constEnergyFrame : Frame :=
  ⟨[0, 1, 2],
    some [some 5, some 5, some 5],
    some [some 1, some 1, some 2],
    some [some 1, some 2, some 4], none⟩

/-- A raw table that cleans (and gap-repairs) to `constEnergyFrame`. -/
def constRaw : RawTable :=
  ⟨["timestamp", "kwh", "ikw_tr", "ambient_temp"],
    [[⟨some 0, none⟩, ⟨none, some 5⟩, ⟨none, some 1⟩, ⟨none, some 1⟩],
      [⟨some 1, none⟩, ⟨none, some 5⟩, ⟨none, some 1⟩, ⟨none, some 2⟩],
      [⟨some 2, none⟩, ⟨none, some 5⟩, ⟨none, some 2⟩, ⟨none, some 4⟩]]⟩

/-- A 10-row frame whose efficiency-ratio column is identically `0`, giving
a non-positive degradation baseline. -/
def zeroBaselineFrame : Frame :=
  ⟨(List.range 10).map fun i => (i : Int),
    none, some (List.replicate 10 (some 0)), none, none⟩

/-! ## Lemmas: column-name folding is idempotent -/

lemma char_toNat_ofNat_small (n : Nat) (h : n < 1000) : (Char.ofNat n).toNat = n := by
  rw [Char.ofNat, dif_pos]
  · simp [Char.ofNatAux, Char.toNat, UInt32.ofNat', UInt32.toNat, BitVec.toNat_ofNatLt]
  · left; omega

lemma toLower_toLower (c : Char) : c.toLower.toLower = c.toLower := by
  unfold Char.toLower
  simp only []
  split_ifs with h1 h2
  · exfalso
    rw [char_toNat_ofNat_small] at h2
    · omega
    · omega
  · rfl
  · rfl

lemma not_ws_toLower (c : Char) (h : c.isWhitespace = false) :
    c.toLower.isWhitespace = false := by
  unfold Char.toLower
  simp only []
  split_ifs with h1
  · have hv : (Char.ofNat (c.toNat + 32)).toNat = c.toNat + 32 := by
      apply char_toNat_ofNat_small; omega
    simp only [Char.isWhitespace, Bool.or_eq_false_iff, decide_eq_false_iff_not]
    refine ⟨⟨⟨?_, ?_⟩, ?_⟩, ?_⟩ <;> intro hc <;> rw [hc] at hv <;>
      simp only [show (' ' : Char).toNat = 32 from rfl, show ('\t' : Char).toNat = 9 from rfl,
        show ('\x0d' : Char).toNat = 13 from rfl, show ('\n' : Char).toNat = 10 from rfl] at hv <;>
      omega
  · exact h

lemma sepChar_sepChar (c : Char) : sepChar (sepChar c) = sepChar c := by
  by_cases h : c = ' ' ∨ c = '-'
  · simp only [sepChar, if_pos h]; decide
  · simp only [sepChar, if_neg h]

lemma toLower_sepChar_toLower (c : Char) :
    (sepChar c.toLower).toLower = sepChar c.toLower := by
  by_cases h : c.toLower = ' ' ∨ c.toLower = '-'
  · simp only [sepChar, if_pos h]; decide
  · simp only [sepChar, if_neg h]; exact toLower_toLower c

lemma not_ws_sepChar (c : Char) (h : c.isWhitespace = false) :
    (sepChar c).isWhitespace = false := by
  by_cases h1 : c = ' ' ∨ c = '-'
  · simp only [sepChar, if_pos h1]; decide
  · simp only [sepChar, if_neg h1]; exact h

lemma head?_dropWhile (p : Char → Bool) (l : List Char) :
    ∀ c ∈ (l.dropWhile p).head?, p c = false := by
  induction l with
  | nil => simp
  | cons a t ih =>
    by_cases h : p a
    · simpa [List.dropWhile_cons, h] using ih
    · intro c hc
      simp [List.dropWhile_cons, h] at hc
      subst hc
      simpa using h

lemma dropWhile_eq_self_of_head (p : Char → Bool) (l : List Char)
    (h : ∀ c ∈ l.head?, p c = false) : l.dropWhile p = l := by
  cases l with
  | nil => rfl
  | cons a t =>
    have ha : p a = false := h a (by simp)
    simp [List.dropWhile_cons, ha]

lemma trimBoth_eq_self (l : List Char) (h : NoWsEnds l) : trimBoth l = l := by
  obtain ⟨h1, h2⟩ := h
  have hl : trimLeft l = l := dropWhile_eq_self_of_head _ _ h1
  have hr : trimRight l = l := by
    unfold trimRight
    rw [dropWhile_eq_self_of_head]
    · exact l.reverse_reverse
    · intro c hc
      rw [List.head?_reverse] at hc
      exact h2 c hc
  rw [trimBoth, hl, hr]

lemma isPrefix_head? {l p : List Char} (h : p <+: l) :
    ∀ c ∈ p.head?, l.head? = some c := by
  obtain ⟨t, rfl⟩ := h
  cases p with
  | nil => simp
  | cons a q => simp

lemma trimRight_isPrefix (l : List Char) : trimRight l <+: l := by
  have h : List.dropWhile Char.isWhitespace l.reverse <:+ l.reverse :=
    List.dropWhile_suffix _
  unfold trimRight
  exact List.reverse_suffix.mp (by simpa using h)

lemma noWsEnds_trimBoth (l : List Char) : NoWsEnds (trimBoth l) := by
  constructor
  · intro c hc
    have hp : trimRight (trimLeft l) <+: trimLeft l := trimRight_isPrefix _
    have := isPrefix_head? hp c hc
    exact head?_dropWhile _ l c this
  · intro c hc
    unfold trimBoth trimRight at hc
    rw [List.getLast?_reverse] at hc
    exact head?_dropWhile _ _ c hc

lemma noWsEnds_map (f : Char → Char)
    (hf : ∀ c, c.isWhitespace = false → (f c).isWhitespace = false)
    (l : List Char) (h : NoWsEnds l) : NoWsEnds (l.map f) := by
  obtain ⟨h1, h2⟩ := h
  constructor
  · intro c hc
    rw [List.head?_map] at hc
    cases hh : l.head? with
    | none => simp [hh] at hc
    | some a =>
      rw [hh] at hc
      simp at hc
      subst hc
      exact hf a (h1 a (by simp [hh]))
  · intro c hc
    rw [List.getLast?_map] at hc
    cases hh : l.getLast? with
    | none => simp [hh] at hc
    | some a =>
      rw [hh] at hc
      simp at hc
      subst hc
      exact hf a (h2 a (by simp [hh]))

lemma foldChars_foldChars (l : List Char) : foldChars (foldChars l) = foldChars l := by
  have hends : NoWsEnds (foldChars l) := by
    apply noWsEnds_map _ not_ws_sepChar
    apply noWsEnds_map _ not_ws_toLower
    exact noWsEnds_trimBoth l
  have h1 : trimBoth (foldChars l) = foldChars l := trimBoth_eq_self _ hends
  show ((trimBoth (foldChars l)).map Char.toLower).map sepChar = foldChars l
  rw [h1]
  have hmaps : ∀ t : List Char,
      List.map sepChar (List.map Char.toLower (List.map sepChar (List.map Char.toLower t)))
        = List.map sepChar (List.map Char.toLower t) := by
    intro t
    induction t with
    | nil => rfl
    | cons c r ih =>
      simp only [List.map_cons, List.cons.injEq]
      exact ⟨by rw [toLower_sepChar_toLower, sepChar_sepChar], ih⟩
  exact hmaps (trimBoth l)

lemma foldName_foldName (s : String) : foldName (foldName s) = foldName s := by
  unfold foldName
  rw [show (String.mk (foldChars s.data)).data = foldChars s.data from rfl]
  rw [foldChars_foldChars]

lemma canonName_fixed_canonical (s : String)
    (h : s = "timestamp" ∨ s = "kwh" ∨ s = "ikw_tr" ∨ s = "ambient_temp" ∨ s = "load_profile") :
    canonName s = s := by
  rcases h with h | h | h | h | h <;> subst h <;> decide

lemma canonName_cases (s : String) :
    canonName s = "timestamp" ∨ canonName s = "kwh" ∨ canonName s = "ikw_tr" ∨
      canonName s = "ambient_temp" ∨ canonName s = "load_profile" ∨ canonName s = foldName s := by
  unfold canonName aliasMap
  split_ifs <;> simp

lemma canonName_canonName (s : String) : canonName (canonName s) = canonName s := by
  rcases canonName_cases s with h | h | h | h | h | h
  · rw [h, canonName_fixed_canonical _ (Or.inl rfl)]
  · rw [h, canonName_fixed_canonical _ (Or.inr (Or.inl rfl))]
  · rw [h, canonName_fixed_canonical _ (Or.inr (Or.inr (Or.inl rfl)))]
  · rw [h, canonName_fixed_canonical _ (Or.inr (Or.inr (Or.inr (Or.inl rfl))))]
  · rw [h, canonName_fixed_canonical _ (Or.inr (Or.inr (Or.inr (Or.inr rfl))))]
  · conv_lhs => rw [h]
    show aliasMap (foldName (foldName s)) = canonName s
    rw [foldName_foldName]
    rfl

lemma map_canonName_idem (l : List String) :
    (l.map canonName).map canonName = l.map canonName := by
  induction l with
  | nil => rfl
  | cons a t ih => simp only [List.map_cons, canonName_canonName, ih]

/-! ## Lemmas: structure of `prepare_dataframe` -/

lemma list_set_of_getElem? {α : Type} (l : List α) (i : Nat) (a : α)
    (h : l[i]? = some a) : l.set i a = l := by
  induction l generalizing i with
  | nil => simp at h
  | cons b t ih =>
    cases i with
    | zero => simp at h; simp [h]
    | succ j =>
      simp only [List.getElem?_cons_succ] at h
      simp [List.set_cons_succ, ih j h]

lemma filterMap_eq_self_of {α : Type} (f : α → Option α) (l : List α)
    (h : ∀ a ∈ l, f a = some a) : l.filterMap f = l := by
  induction l with
  | nil => rfl
  | cons a t ih =>
    rw [List.filterMap_cons, h a (by simp)]
    rw [ih fun b hb => h b (by simp [hb])]

lemma findIdx?_exists_of_eq_some {α : Type} {p : α → Bool} {l : List α} {i : Nat}
    (h : l.findIdx? p = some i) : ∃ a ∈ l, p a = true := by
  by_contra hcon
  push_neg at hcon
  have hnone : l.findIdx? p = none :=
    List.findIdx?_eq_none_iff.mpr fun x hx => by simpa using hcon x hx
  rw [hnone] at h
  exact absurd h (by simp)

lemma sorted_perm_nodup_keys_eq {l1 l2 : List (Int × List Cell)} (hp : List.Perm l1 l2)
    (hs1 : List.Sorted keyLe l1) (hs2 : List.Sorted keyLe l2)
    (hnd : (l1.map Prod.fst).Nodup) : l1 = l2 := by
  induction l1 generalizing l2 with
  | nil => exact hp.symm.eq_nil.symm
  | cons a t1 ih =>
    cases l2 with
    | nil => exact absurd hp.eq_nil (by simp)
    | cons b t2 =>
      have hab : a = b := by
        by_contra hne
        have ha2 : a ∈ t2 := by
          have hm := hp.mem_iff.mp (List.mem_cons_self a t1)
          rcases List.mem_cons.mp hm with h | h
          · exact absurd h hne
          · exact h
        have hb1 : b ∈ t1 := by
          have hm := hp.mem_iff.mpr (List.mem_cons_self b t2)
          rcases List.mem_cons.mp hm with h | h
          · exact absurd h.symm hne
          · exact h
        have h1 : keyLe a b := List.rel_of_sorted_cons hs1 b hb1
        have h2 : keyLe b a := List.rel_of_sorted_cons hs2 a ha2
        have hkey : b.1 = a.1 := le_antisymm h2 h1
        have hmem : a.1 ∈ t1.map Prod.fst := by
          rw [← hkey]
          exact List.mem_map_of_mem Prod.fst hb1
        simp only [List.map_cons, List.nodup_cons] at hnd
        exact hnd.1 hmem
      subst hab
      have hp' : List.Perm t1 t2 := hp.cons_inv
      have hnd' : (t1.map Prod.fst).Nodup := by
        simp only [List.map_cons, List.nodup_cons] at hnd
        exact hnd.2
      rw [ih hp' hs1.of_cons hs2.of_cons hnd']

lemma dupLabel_eq_none_iff (hdr : List String) :
    dupLabel hdr = none ↔ NoDupLabels hdr := by
  unfold dupLabel NoDupLabels
  by_cases hts : 2 ≤ hdr.count "timestamp"
  · rw [if_pos hts]
    constructor
    · intro h
      exact absurd h (by simp)
    · rintro ⟨h1, -⟩
      omega
  · rw [if_neg hts]
    rw [List.find?_eq_none]
    constructor
    · intro hf
      refine ⟨by omega, fun c hc => ?_⟩
      have hfc := hf c hc
      simp only [decide_eq_true_eq] at hfc
      omega
    · rintro ⟨-, hall⟩ c hc
      have := hall c hc
      simp only [decide_eq_true_eq]
      omega

lemma prepare_ok_spec (sv : SortValues) {t : RawTable} {c : CleanTable}
    (h : prepare_dataframe sv t = .ok c) :
    c.header = t.header.map canonName ∧
    (t.header.map canonName).findIdx? (fun s => s = "timestamp") = some c.tsIdx ∧
    dupLabel (t.header.map canonName) = none ∧
    List.Sorted keyLe c.rows ∧
    ∀ r ∈ c.rows, r.2[c.tsIdx]? = some ⟨some r.1, none⟩ := by
  simp only [prepare_dataframe] at h
  cases hfind : (t.header.map canonName).findIdx? (fun s => s = "timestamp") with
  | none => rw [hfind] at h; exact absurd h (by simp)
  | some i =>
    rw [hfind] at h
    cases hdup : dupLabel (t.header.map canonName) with
    | some s => rw [hdup] at h; exact absurd h (by simp)
    | none =>
      rw [hdup] at h
      simp only [Except.ok.injEq] at h
      subst h
      refine ⟨rfl, rfl, rfl, sv.sort_sorted _, ?_⟩
      intro r hr
      rw [(sv.sort_perm _).mem_iff] at hr
      obtain ⟨row, hrow, hmk⟩ := List.mem_filterMap.mp hr
      cases hts : (row[i]?).bind Cell.tsVal with
      | none => rw [hts] at hmk; simp at hmk
      | some ts =>
        rw [hts] at hmk
        simp only [Option.some.injEq] at hmk
        obtain ⟨cell, hcell, -⟩ := Option.bind_eq_some.mp hts
        have hlt : i < row.length := by
          by_contra hge
          rw [List.getElem?_eq_none (by omega)] at hcell
          exact absurd hcell (by simp)
        subst hmk
        simpa using List.getElem?_set_self (l := row) (a := (⟨some ts, none⟩ : Cell)) hlt

lemma prepare_idem (sv : SortValues) {t : RawTable} {c : CleanTable}
    (h : prepare_dataframe sv t = .ok c)
    (hnd : (c.rows.map Prod.fst).Nodup) :
    prepare_dataframe sv (toRaw c) = .ok c := by
  obtain ⟨hhdr, hfind, hdup, hsort, hcell⟩ := prepare_ok_spec sv h
  have hmap : c.header.map canonName = c.header := by
    rw [hhdr]; exact map_canonName_idem _
  have hfind2 : (c.header.map canonName).findIdx? (fun s => s = "timestamp") = some c.tsIdx := by
    rw [hmap, hhdr, hfind]
  have hdup2 : dupLabel (c.header.map canonName) = none := by
    rw [hmap, hhdr, hdup]
  unfold prepare_dataframe toRaw
  simp only [hfind2, hdup2]
  have hkeyed :
      ((c.rows.map Prod.snd).filterMap fun r =>
        match (r[c.tsIdx]?).bind Cell.tsVal with
        | some ts => some (ts, r.set c.tsIdx ⟨some ts, none⟩)
        | none => none) = c.rows := by
    rw [List.filterMap_map]
    apply filterMap_eq_self_of
    intro r hr
    have hc := hcell r hr
    simp only [Function.comp_apply, hc]
    show some (r.1, r.2.set c.tsIdx ⟨some r.1, none⟩) = some r
    rw [list_set_of_getElem? _ _ _ hc]
  rw [hkeyed]
  have hnd2 : ((sv.sort c.rows).map Prod.fst).Nodup :=
    (((sv.sort_perm c.rows).map Prod.fst).nodup_iff).mpr hnd
  rw [sorted_perm_nodup_keys_eq (sv.sort_perm c.rows) (sv.sort_sorted c.rows) hsort hnd2, hmap]

lemma normalize_ok_inv (sv : SortValues) {t : RawTable} {c : CleanTable}
    (h : normalize sv t = .ok c) :
    prepare_dataframe sv t = .ok c ∧ ¬ (availableCoreOf c.header).length < 3 := by
  unfold normalize at h
  cases hp : prepare_dataframe sv t with
  | error e => rw [hp] at h; exact absurd h (by simp [Bind.bind, Except.bind])
  | ok c0 =>
    rw [hp] at h
    have hcc : coreCheck c0 = .ok c := by simpa [Bind.bind, Except.bind] using h
    unfold coreCheck at hcc
    by_cases hcon : (availableCoreOf c0.header).length < 3
    · rw [if_pos hcon] at hcc; exact absurd hcc (by simp)
    · rw [if_neg hcon] at hcc
      simp only [Except.ok.injEq] at hcc
      subst hcc
      exact ⟨rfl, hcon⟩

lemma prepare_error_iff (sv : SortValues) (t : RawTable) :
    prepare_dataframe sv t = .error (.schema .missingTimestamp) ↔
      "timestamp" ∉ t.header.map canonName := by
  constructor
  · intro h hmem
    simp only [prepare_dataframe] at h
    cases hfind : (t.header.map canonName).findIdx? (fun s => s = "timestamp") with
    | none =>
      have := List.findIdx?_eq_none_iff.mp hfind _ hmem
      simp at this
    | some i =>
      rw [hfind] at h
      cases hdup : dupLabel (t.header.map canonName) with
      | some s => rw [hdup] at h; exact absurd h (by simp)
      | none => rw [hdup] at h; exact absurd h (by simp)
  · intro hmem
    have hfind : (t.header.map canonName).findIdx? (fun s => s = "timestamp") = none := by
      apply List.findIdx?_eq_none_iff.mpr
      intro x hx
      simp only [decide_eq_false_iff_not]
      intro hxeq
      exact hmem (hxeq ▸ hx)
    simp only [prepare_dataframe, hfind]

lemma prepare_ok_of_mem (sv : SortValues) (t : RawTable)
    (hmem : "timestamp" ∈ t.header.map canonName)
    (hdup : dupLabel (t.header.map canonName) = none) :
    ∃ c, prepare_dataframe sv t = .ok c ∧ c.header = t.header.map canonName := by
  cases hfind : (t.header.map canonName).findIdx? (fun s => s = "timestamp") with
  | none =>
    have := List.findIdx?_eq_none_iff.mp hfind _ hmem
    simp at this
  | some i =>
    refine ⟨⟨t.header.map canonName, i,
      sv.sort (t.rows.filterMap fun r =>
        match (r[i]?).bind Cell.tsVal with
        | some ts => some (ts, r.set i ⟨some ts, none⟩)
        | none => none)⟩, ?_, rfl⟩
    simp only [prepare_dataframe, hfind, hdup]

lemma prepare_dup_of_mem (sv : SortValues) (t : RawTable) {s : String}
    (hmem : "timestamp" ∈ t.header.map canonName)
    (hdup : dupLabel (t.header.map canonName) = some s) :
    prepare_dataframe sv t = .error (.pandasDup s) := by
  cases hfind : (t.header.map canonName).findIdx? (fun s => s = "timestamp") with
  | none =>
    have := List.findIdx?_eq_none_iff.mp hfind _ hmem
    simp at this
  | some i =>
    simp only [prepare_dataframe, hfind, hdup]

/-! ## Claim theorems: the normaliser -/

/-- C2 (amended): `normalize(raw_table)` fails with `SchemaError` exactly
when either no timestamp column exists after column-name folding, or no
pipeline-relevant canonical label is duplicated and fewer than 3 of the 4
canonical core parameters survive; when a timestamp column exists but two
raw columns fold to the same canonical timestamp or core-parameter label,
it fails with the escaping pandas exception instead (not a `SchemaError`,
and not a clean table); in every remaining case it returns a clean table,
and — `Except` being exclusive — no partial result accompanies a failure. -/
theorem normalize_failure_trichotomy (sv : SortValues) (t : RawTable) :
    ((∃ e, normalize sv t = .error (.schema e)) ↔
      ("timestamp" ∉ t.header.map canonName ∨
        (NoDupLabels (t.header.map canonName) ∧
          (availableCoreOf (t.header.map canonName)).length < 3)))
    ∧ ((∃ s, normalize sv t = .error (.pandasDup s)) ↔
      ("timestamp" ∈ t.header.map canonName ∧
        ¬ NoDupLabels (t.header.map canonName)))
    ∧ ((∃ c, normalize sv t = .ok c) ↔
      ("timestamp" ∈ t.header.map canonName ∧
        NoDupLabels (t.header.map canonName) ∧
        3 ≤ (availableCoreOf (t.header.map canonName)).length)) := by
  by_cases hmem : "timestamp" ∈ t.header.map canonName
  · cases hdup : dupLabel (t.header.map canonName) with
    | some s =>
      have hnodup : ¬ NoDupLabels (t.header.map canonName) := by
        intro hno
        rw [← dupLabel_eq_none_iff] at hno
        rw [hno] at hdup
        exact absurd hdup (by simp)
      have herr : normalize sv t = .error (.pandasDup s) := by
        unfold normalize
        rw [prepare_dup_of_mem sv t hmem hdup]
        rfl
      refine ⟨⟨?_, ?_⟩, ⟨fun _ => ⟨hmem, hnodup⟩, fun _ => ⟨s, herr⟩⟩, ⟨?_, ?_⟩⟩
      · rintro ⟨e, he⟩
        rw [herr] at he
        exact absurd he (by simp)
      · rintro (h1 | ⟨h2, -⟩)
        · exact absurd hmem h1
        · exact absurd h2 hnodup
      · rintro ⟨c, hc⟩
        rw [herr] at hc
        exact absurd hc (by simp)
      · rintro ⟨-, h2, -⟩
        exact absurd h2 hnodup
    | none =>
      have hnodup : NoDupLabels (t.header.map canonName) :=
        (dupLabel_eq_none_iff _).mp hdup
      obtain ⟨c, hp, hhdr⟩ := prepare_ok_of_mem sv t hmem hdup
      have hnorm : normalize sv t = coreCheck c := by
        unfold normalize
        rw [hp]
        rfl
      by_cases hcore : (availableCoreOf (t.header.map canonName)).length < 3
      · have herr : normalize sv t = .error (.schema .missingCoreParams) := by
          rw [hnorm]
          unfold coreCheck
          rw [hhdr, if_pos hcore]
        refine ⟨⟨fun _ => Or.inr ⟨hnodup, hcore⟩, fun _ => ⟨_, herr⟩⟩, ⟨?_, ?_⟩, ⟨?_, ?_⟩⟩
        · rintro ⟨s, hs⟩
          rw [herr] at hs
          exact absurd hs (by simp)
        · rintro ⟨-, hnd⟩
          exact absurd hnodup hnd
        · rintro ⟨c2, hc2⟩
          rw [herr] at hc2
          exact absurd hc2 (by simp)
        · rintro ⟨-, -, hge⟩
          omega
      · have hok : normalize sv t = .ok c := by
          rw [hnorm]
          unfold coreCheck
          rw [hhdr, if_neg hcore]
        refine ⟨⟨?_, ?_⟩, ⟨?_, ?_⟩, ⟨fun _ => ⟨hmem, hnodup, by omega⟩, fun _ => ⟨c, hok⟩⟩⟩
        · rintro ⟨e, he⟩
          rw [hok] at he
          exact absurd he (by simp)
        · rintro (h1 | ⟨-, h2⟩)
          · exact absurd hmem h1
          · omega
        · rintro ⟨s, hs⟩
          rw [hok] at hs
          exact absurd hs (by simp)
        · rintro ⟨-, hnd⟩
          exact absurd hnodup hnd
  · have hp : prepare_dataframe sv t = .error (.schema .missingTimestamp) :=
      (prepare_error_iff sv t).mpr hmem
    have herr : normalize sv t = .error (.schema .missingTimestamp) := by
      unfold normalize
      rw [hp]
      rfl
    refine ⟨⟨fun _ => Or.inl hmem, fun _ => ⟨_, herr⟩⟩, ⟨?_, ?_⟩, ⟨?_, ?_⟩⟩
    · rintro ⟨s, hs⟩
      rw [herr] at hs
      exact absurd hs (by simp)
    · rintro ⟨hmem2, -⟩
      exact absurd hmem2 hmem
    · rintro ⟨c, hc⟩
      rw [herr] at hc
      exact absurd hc (by simp)
    · rintro ⟨hmem2, -⟩
      exact absurd hmem2 hmem

/-- Counterexample to C2 as stated: `Date` and `Time` are both `ALIAS_MAP`
synonyms of `timestamp`, so on this concrete table a timestamp column
exists after folding and all four core parameters survive — the claim then
promises a clean table — yet normalization fails, with the pandas
duplicate-label exception (`pd.to_datetime` over a two-column
`df["timestamp"]`), which is not a `SchemaError`. -/
theorem normalize_duplicate_label_counterexample :
    "timestamp" ∈ dupTsRaw.header.map canonName
    ∧ 3 ≤ (availableCoreOf (dupTsRaw.header.map canonName)).length
    ∧ normalize stableSort dupTsRaw = .error (PrepError.pandasDup ("timestamp")) := by
  refine ⟨?_, ?_, ?_⟩ <;> with_unfolding_all decide

/-- C7 (amended): normalization is idempotent on every input it accepts
whose cleaned table has pairwise-distinct timestamps — for **any**
conforming tie order of `sort_values`, re-normalizing the output returns it
unchanged. (With duplicate timestamps the unstable quicksort leaves the
tie order unspecified, and idempotence is not guaranteed.) -/
theorem normalize_idempotent_distinct (sv : SortValues) {t : RawTable} {c : CleanTable}
    (h : normalize sv t = .ok c) (hnd : (c.rows.map Prod.fst).Nodup) :
    normalize sv (toRaw c) = .ok c := by
  obtain ⟨hp, hcore⟩ := normalize_ok_inv sv h
  have hp2 : prepare_dataframe sv (toRaw c) = .ok c := prepare_idem sv hp hnd
  unfold normalize
  rw [hp2]
  show coreCheck c = .ok c
  unfold coreCheck
  rw [if_neg hcore]

/-- Witness for the amended C7 at a concrete table with distinct
timestamps. -/
theorem normalize_idempotent_distinct_witness :
    normalize stableSort sampleRaw = .ok sampleClean ∧
      normalize stableSort (toRaw sampleClean) = .ok sampleClean :=
  ⟨by with_unfolding_all decide,
    normalize_idempotent_distinct stableSort (t := sampleRaw)
      (by with_unfolding_all decide) (by with_unfolding_all decide)⟩

/-- Counterexample to C7 as stated: a concrete table that passes
normalization but has two rows with equal timestamps and different
contents. The program's sort pins only the key order; under the conforming
tie order `revTieSort` (one an unstable quicksort is free to produce),
normalizing once gives the tied rows in one order and re-normalizing the
output flips them, so `normalize (normalize df) ≠ normalize df`. -/
theorem normalize_unstable_tie_counterexample :
    normalize revTieSort dupKeyRaw = .ok dupKeyCleanA
    ∧ normalize revTieSort (toRaw dupKeyCleanA) = .ok dupKeyCleanB
    ∧ dupKeyCleanB ≠ dupKeyCleanA := by
  refine ⟨?_, ?_, ?_⟩ <;> with_unfolding_all decide

/-- C8: the output of the normaliser has non-decreasing timestamps, and
every remaining row's timestamp cell holds a parsed (non-missing,
non-sentinel) timestamp equal to its sort key — for every conforming
`sort_values` implementation. -/
theorem normalize_monotonic_timestamps (sv : SortValues) {t : RawTable} {c : CleanTable}
    (h : normalize sv t = .ok c) :
    List.Sorted (fun a b : Int => a ≤ b) (c.rows.map Prod.fst) ∧
      ∀ r ∈ c.rows, (r.2[c.tsIdx]?).bind Cell.tsVal = some r.1 := by
  obtain ⟨hp, -⟩ := normalize_ok_inv sv h
  obtain ⟨-, -, -, hsort, hcell⟩ := prepare_ok_spec sv hp
  constructor
  · exact List.pairwise_map.mpr hsort
  · intro r hr
    rw [hcell r hr]
    rfl

/-- Witness for C8 at a concrete table. -/
theorem normalize_monotonic_timestamps_witness :
    List.Sorted (fun a b : Int => a ≤ b) (sampleClean.rows.map Prod.fst) ∧
      ∀ r ∈ sampleClean.rows,
        (r.2[sampleClean.tsIdx]?).bind Cell.tsVal = some r.1 :=
  normalize_monotonic_timestamps stableSort (t := sampleRaw) (by with_unfolding_all decide)

/-! ## Lemmas and claim theorems: the forecaster -/

lemma projectStep_snd_nonneg (cfg : StepCfg) (hist : List FRow) :
    0 ≤ (projectStep cfg hist).2.2 := by
  simp only [projectStep]
  exact le_max_right _ 0

lemma projectLoop_snd_spec (cfg : StepCfg) (n : Nat) (hist : List FRow) :
    ((projectLoop cfg hist n).2).length = n ∧
      ∀ pr ∈ (projectLoop cfg hist n).2, 0 ≤ pr.2 := by
  induction n generalizing hist with
  | zero => exact ⟨rfl, by intro pr hpr; simp [projectLoop] at hpr⟩
  | succ m ih =>
    obtain ⟨hlen, hpos⟩ := ih (projectStep cfg hist).1
    constructor
    · simp only [projectLoop, List.length_cons, hlen]
    · intro pr hpr
      simp only [projectLoop, List.mem_cons] at hpr
      rcases hpr with rfl | hpr
      · exact projectStep_snd_nonneg cfg hist
      · exact hpos pr hpr

/-- C1: whenever the forecaster accepts its input, the forecast series has
exactly the requested number of steps and every predicted energy is
clamped at `0`. -/
theorem forecast_horizon_contract (coef : List ℚ) (intercept : ℚ)
    (defaults : List ℚ) (freq : Option Int) (fr : Frame) (h : Nat)
    (out : List (Int × ℚ))
    (hok : forecast_demand coef intercept defaults freq fr h = .ok out) :
    out.length = h ∧ ∀ pr ∈ out, 0 ≤ pr.2 := by
  unfold forecast_demand at hok
  by_cases hk : fr.kwh.isNone
  · rw [if_pos hk] at hok
    exact absurd hok (by simp)
  · rw [if_neg hk] at hok
    by_cases hu : (usableIdx ⟨fr.ambient_temp.isSome, fr.load_profile.isSome, coef, intercept,
        defaults, freq.getD 1⟩ (List.insertionSort rowLe (frameRows fr))).length < 30
    · rw [if_pos hu] at hok
      exact absurd hok (by simp)
    · rw [if_neg hu] at hok
      simp only [Except.ok.injEq] at hok
      subst hok
      exact projectLoop_snd_spec _ _ _

/-- Witness for C1 at a concrete accepted frame and horizon 2. -/
theorem forecast_horizon_contract_witness :
    ((([(54, 1), (55, 1)] : List (Int × ℚ))).length = 2
      ∧ ∀ pr ∈ ([(54, 1), (55, 1)] : List (Int × ℚ)), 0 ≤ pr.2) :=
  forecast_horizon_contract [] 1 [] none horizonFrame 2 [(54, 1), (55, 1)]
    (by with_unfolding_all decide)

lemma featVec_flags_eq (c1 c2 : StepCfg) (hA : c1.hasAmb = c2.hasAmb)
    (hL : c1.hasLoad = c2.hasLoad) (rows : List FRow) (i : Nat) :
    featVec c1 rows i = featVec c2 rows i := by
  unfold featVec
  rw [hA, hL]

lemma usableIdx_flags_eq (c1 c2 : StepCfg) (hA : c1.hasAmb = c2.hasAmb)
    (hL : c1.hasLoad = c2.hasLoad) (rows : List FRow) :
    usableIdx c1 rows = usableIdx c2 rows := by
  unfold usableIdx
  apply List.filter_congr
  intro i _
  rw [featVec_flags_eq c1 c2 hA hL]

lemma usable_nil_of_no_kwh (fr : Frame) (hk : fr.kwh = none) (cfg : StepCfg) :
    usableIdx cfg (List.insertionSort rowLe (frameRows fr)) = [] := by
  have hall : ∀ r ∈ List.insertionSort rowLe (frameRows fr), r.kwh = none := by
    intro r hr
    rw [List.mem_insertionSort] at hr
    unfold frameRows at hr
    obtain ⟨j, -, rfl⟩ := List.mem_map.mp hr
    show colAt fr.kwh j = none
    rw [hk]
    rfl
  unfold usableIdx
  rw [List.filter_eq_nil_iff]
  intro i hi
  rw [List.mem_range] at hi
  simp only [Bool.not_eq_true]
  rw [List.all_eq_false]
  cases hri : (List.insertionSort rowLe (frameRows fr))[i]? with
  | none =>
    rw [List.getElem?_eq_none_iff] at hri
    omega
  | some r =>
    refine ⟨if i = 0 then none else
      ((List.insertionSort rowLe (frameRows fr))[i - 1]?).bind FRow.kwh, ?_, ?_⟩
    · unfold featVec
      rw [hri]
      simp
    · by_cases h0 : i = 0
      · simp [h0]
      · rw [if_neg h0]
        cases hprev : (List.insertionSort rowLe (frameRows fr))[i - 1]? with
        | none => simp
        | some r2 =>
          simp [hall r2 (List.getElem?_mem hprev)]

/-- C3: the forecaster fails exactly when fewer than 30 usable training
rows exist (for a frame without the energy column no row is usable, which
the spec's error taxonomy also files under `InsufficientDataError`), and
the failure is isolated: the KPI engine and the anomaly detector are total
on every frame and return outputs of the right shape. -/
theorem forecast_insufficient_iff_isolated :
    (∀ (coef defaults : List ℚ) (intercept : ℚ) (freq : Option Int) (fr : Frame) (h : Nat),
      ((∃ e, forecast_demand coef intercept defaults freq fr h = .error e) ↔
        usableRows fr < 30))
    ∧ (∀ (sc : OutlierScorer) (fr : Frame),
        (run_diagnostics sc fr).flags.length = nRows fr
          ∧ (run_diagnostics sc fr).summary.anomaly_count ≤ nRows fr
          ∧ (computeKpis fr).records = nRows fr) := by
  constructor
  · intro coef defaults intercept freq fr h
    cases hk : fr.kwh with
    | none =>
      have hnil := usable_nil_of_no_kwh fr hk
      constructor
      · intro _
        simp only [usableRows]
        rw [hnil]
        simp
      · intro _
        refine ⟨.missingKwh, ?_⟩
        unfold forecast_demand
        rw [if_pos (by rw [hk]; rfl)]
    | some col =>
      have hflag : usableIdx ⟨fr.ambient_temp.isSome, fr.load_profile.isSome, coef, intercept,
            defaults, freq.getD 1⟩ (List.insertionSort rowLe (frameRows fr))
          = usableIdx ⟨fr.ambient_temp.isSome, fr.load_profile.isSome, [], 0, [], 1⟩
            (List.insertionSort rowLe (frameRows fr)) :=
        usableIdx_flags_eq _ _ rfl rfl _
      have hnotnone : fr.kwh.isNone = false := by rw [hk]; rfl
      constructor
      · rintro ⟨e, he⟩
        unfold forecast_demand at he
        rw [if_neg (by rw [hnotnone]; simp)] at he
        by_cases hu : (usableIdx ⟨fr.ambient_temp.isSome, fr.load_profile.isSome, coef, intercept,
            defaults, freq.getD 1⟩ (List.insertionSort rowLe (frameRows fr))).length < 30
        · simp only [usableRows]
          rw [← hflag]
          exact hu
        · rw [if_neg hu] at he
          exact absurd he (by simp)
      · intro hu
        simp only [usableRows] at hu
        refine ⟨.insufficientData, ?_⟩
        unfold forecast_demand
        rw [if_neg (by rw [hnotnone]; simp)]
        rw [if_pos (by rw [hflag]; exact hu)]
  · intro sc fr
    refine ⟨?_, ?_, rfl⟩
    · simp [run_diagnostics]
    · have hlen : (run_diagnostics sc fr).flags.length = nRows fr := by
        simp [run_diagnostics]
      calc (run_diagnostics sc fr).summary.anomaly_count
          = (run_diagnostics sc fr).flags.count true := by simp [run_diagnostics]
        _ ≤ (run_diagnostics sc fr).flags.length := List.count_le_length _ _
        _ = nRows fr := hlen

/-! ## Lemmas and claim theorems: exogenous synthesis (C9) -/

lemma projectStep_fst (cfg : StepCfg) (hist : List FRow) :
    ∃ r : FRow, (projectStep cfg hist).1 = hist ++ [r] ∧
      r.ambient = (if cfg.hasAmb then last24Mean FRow.ambient hist else none) ∧
      r.load = (if cfg.hasLoad then last24Mean FRow.load hist else none) :=
  ⟨_, rfl, rfl, rfl⟩

lemma histAfter_zero (cfg : StepCfg) (hist : List FRow) : histAfter cfg hist 0 = hist := rfl

lemma histAfter_succ (cfg : StepCfg) (hist : List FRow) (n : Nat) :
    histAfter cfg hist (n + 1) = histAfter cfg (projectStep cfg hist).1 n := rfl

lemma histAfter_getElem_stable (cfg : StepCfg) (n : Nat) (hist : List FRow) (j : Nat)
    (hj : j < hist.length) : (histAfter cfg hist n)[j]? = hist[j]? := by
  induction n generalizing hist with
  | zero => rfl
  | succ m ih =>
    obtain ⟨r, hr, -⟩ := projectStep_fst cfg hist
    have hlt : j < (hist ++ [r]).length := by
      simp only [List.length_append, List.length_cons, List.length_nil]
      omega
    rw [histAfter_succ, hr]
    rw [ih (hist ++ [r]) hlt]
    exact List.getElem?_append_left hj

lemma synth_from_extended_history (cfg : StepCfg) (f : FRow → Option ℚ)
    (hf : ∀ h : List FRow, ∃ r : FRow, (projectStep cfg h).1 = h ++ [r] ∧
        f r = last24Mean f h)
    (hist : List FRow) (n i : Nat) (hi : i < n) :
    ((histAfter cfg hist n)[hist.length + i]?).map f
      = some (last24Mean f (histAfter cfg hist i)) := by
  induction n generalizing hist i with
  | zero => omega
  | succ m ih =>
    obtain ⟨r, hr, hfr⟩ := hf hist
    cases i with
    | zero =>
      rw [histAfter_succ, hr]
      rw [histAfter_getElem_stable cfg m (hist ++ [r]) (hist.length + 0) (by simp)]
      rw [Nat.add_zero, List.getElem?_concat_length]
      rw [histAfter_zero]
      show some (f r) = some (last24Mean f hist)
      rw [hfr]
    | succ j =>
      have hj : j < m := by omega
      have hthis := ih (projectStep cfg hist).1 j hj
      rw [hr] at hthis
      have hidx : (hist ++ [r]).length + j = hist.length + (j + 1) := by
        simp only [List.length_append, List.length_cons, List.length_nil]
        omega
      rw [hidx] at hthis
      rw [histAfter_succ, hr, hthis]
      congr 2
      rw [histAfter_succ cfg hist j, hr]

/-- C9 (amended): during the iterative projection, the `ambient_temp` and
`load` values synthesized at step `i` are each the mean of the last 24
values of that column in the **extended** history at that step — the
history that already contains the `i` previously synthesized steps — not of
the original input table (the two agree only at the first step). -/
theorem forecast_exogenous_from_extended_history (cfg : StepCfg) (hist : List FRow)
    (n i : Nat) (hi : i < n) :
    (cfg.hasAmb = true →
      ((histAfter cfg hist n)[hist.length + i]?).map FRow.ambient
        = some (last24Mean FRow.ambient (histAfter cfg hist i)))
    ∧ (cfg.hasLoad = true →
      ((histAfter cfg hist n)[hist.length + i]?).map FRow.load
        = some (last24Mean FRow.load (histAfter cfg hist i))) := by
  constructor
  · intro hamb
    refine synth_from_extended_history cfg FRow.ambient ?_ hist n i hi
    intro h
    obtain ⟨r, hr, hra, -⟩ := projectStep_fst cfg h
    exact ⟨r, hr, by rw [hra, if_pos hamb]⟩
  · intro hload
    refine synth_from_extended_history cfg FRow.load ?_ hist n i hi
    intro h
    obtain ⟨r, hr, -, hrl⟩ := projectStep_fst cfg h
    exact ⟨r, hr, by rw [hrl, if_pos hload]⟩

/-- Witness for the amended C9 at a concrete accepted run, step 1, for both
exogenous columns. -/
theorem forecast_exogenous_witness :
    (((histAfter exoCfg exoHist 2)[exoHist.length + 1]?).map FRow.ambient
      = some (last24Mean FRow.ambient (histAfter exoCfg exoHist 1)))
    ∧ (((histAfter exoCfg exoHist 2)[exoHist.length + 1]?).map FRow.load
      = some (last24Mean FRow.load (histAfter exoCfg exoHist 1))) :=
  ⟨(forecast_exogenous_from_extended_history exoCfg exoHist 2 1 (by omega)).1 rfl,
    (forecast_exogenous_from_extended_history exoCfg exoHist 2 1 (by omega)).2 rfl⟩

/-- Counterexample to C9 as stated: on a concrete accepted 54-row frame
(30 usable rows, both exogenous columns present), the run
`forecast_demand [] 0 [] none exoFrame 2` succeeds; the means of the last
24 **input** values are `1` (ambient) and `2` (load), but the values
synthesized at the second step are `25/24` and `25/12` — the code takes
each mean over the extended history, which already contains the step-one
synthetic values, not over the input table. -/
theorem forecast_exogenous_counterexample :
    forecast_demand [] 0 [] none exoFrame 2 = .ok [(54, 0), (55, 0)]
    ∧ last24Mean FRow.ambient exoHist = some 1
    ∧ last24Mean FRow.load exoHist = some 2
    ∧ ((histAfter exoCfg exoHist 2)[exoHist.length + 1]?).map FRow.ambient
        = some (some (25 / 24))
    ∧ ((histAfter exoCfg exoHist 2)[exoHist.length + 1]?).map FRow.load
        = some (some (25 / 12))
    ∧ some (some ((25 : ℚ) / 24)) ≠ some (last24Mean FRow.ambient exoHist)
    ∧ some (some ((25 : ℚ) / 12)) ≠ some (last24Mean FRow.load exoHist) := by
  refine ⟨?_, ?_, ?_, ?_, ?_, ?_, ?_⟩ <;> with_unfolding_all decide

/-! ## Claim theorem: the degradation guard (C10) -/

/-- C10: when the efficiency column is present with at least 10 rows but
the baseline-window mean is non-positive, the reported degradation is
exactly `0.0` — the division by the baseline is guarded. -/
theorem degradation_guard (sc : OutlierScorer) (fr : Frame) (b : ℚ)
    (hike : fr.ikw_tr.isSome = true) (hn : 10 ≤ nRows fr)
    (hb : baselineMean fr = some b) (hb0 : b ≤ 0) :
    (run_diagnostics sc fr).summary.efficiency_degradation_pct = some 0 := by
  simp only [run_diagnostics]
  rw [if_pos ⟨hike, hn⟩]
  simp only [hb]
  rw [if_neg (not_lt.mpr hb0)]

/-- Witness for C10 at a concrete frame with an all-zero efficiency column. -/
theorem degradation_guard_witness :
    (run_diagnostics trivialScorer zeroBaselineFrame).summary.efficiency_degradation_pct
      = some 0 :=
  degradation_guard trivialScorer zeroBaselineFrame 0 rfl
    (by with_unfolding_all decide) (by with_unfolding_all decide) le_rfl

/-! ## Claim theorem: tiered anomaly flags are monotone (C6) -/

lemma varD_nonneg (l : List ℚ) : 0 ≤ varD l := by
  unfold varD meanD
  apply div_nonneg
  · apply List.sum_nonneg
    intro x hx
    obtain ⟨y, -, rfl⟩ := List.mem_map.mp hx
    positivity
  · positivity

lemma zThreshold_pos (s : String) : 0 < zThreshold s := by
  unfold zThreshold
  split_ifs <;> norm_num

/-- C6: for sensitivity tiers with a stricter (larger) cutoff, the set of
records the statistical-threshold method flags is a subset of the set
flagged under the weaker tier. -/
theorem anomaly_flag_subset (t1 t2 : String) (col : List (Option ℚ))
    (h : zThreshold t2 ≤ zThreshold t1) :
    flaggedRecords t1 col ⊆ flaggedRecords t2 col := by
  intro i hi
  unfold flaggedRecords at hi ⊢
  rw [List.mem_filter] at hi ⊢
  obtain ⟨hrange, hflag⟩ := hi
  refine ⟨hrange, ?_⟩
  unfold zFlag at hflag ⊢
  cases hv : col.getD i none with
  | none => rw [hv] at hflag; exact absurd hflag (by simp)
  | some v =>
    rw [hv] at hflag
    rw [decide_eq_true_iff] at hflag
    rw [decide_eq_true_iff]
    refine lt_of_le_of_lt ?_ hflag
    apply mul_le_mul_of_nonneg_right
    · have h2 : (0 : ℚ) ≤ zThreshold t2 := le_of_lt (zThreshold_pos t2)
      exact pow_le_pow_left₀ h2 h 2
    · exact varD_nonneg _

/-- Witness for C6: Low (cutoff 2.7) is stricter than High (cutoff 1.9) on
a concrete column. -/
theorem anomaly_flag_subset_witness :
    flaggedRecords ("Low") [some 0, some 0, some 0, some 100]
      ⊆ flaggedRecords ("High") [some 0, some 0, some 0, some 100] :=
  anomaly_flag_subset ("Low") ("High") [some 0, some 0, some 0, some 100]
    (by with_unfolding_all decide)

/-! ## Claim theorems: the recommendation engine (C5) -/

/-- C5 (amended): the recommendation engine always returns exactly three
recommendations — each of its three rules emits a finding from either its
positive or its baseline branch — so the output is never empty; when no
rule fires, the output is the three baseline "maintain / keep /
continue monitoring" findings, not a single dedicated "stable" finding. -/
theorem recommendations_never_empty (avg_kwh : ℚ) (forecastVals : List (Option ℚ))
    (fullIkw : List (Option ℚ)) (anomalyCount : Nat) (effThreshold : ℚ) :
    (generate_recommendations avg_kwh forecastVals fullIkw anomalyCount effThreshold).length = 3
    ∧ generate_recommendations avg_kwh forecastVals fullIkw anomalyCount effThreshold ≠ []
    ∧ (¬ recRulesFire avg_kwh forecastVals fullIkw anomalyCount effThreshold →
        generate_recommendations avg_kwh forecastVals fullIkw anomalyCount effThreshold
          = [Rec.forecastBaseline,
              Rec.efficiencyOk (colMean (fullIkw.drop (fullIkw.length - 24))),
              Rec.noAnomalies]) := by
  refine ⟨rfl, by simp [generate_recommendations], ?_⟩
  intro hno
  unfold recRulesFire at hno
  push_neg at hno
  obtain ⟨h1, h2, h3⟩ := hno
  have e1 : (((if forecastVals.length = 0 then some avg_kwh else colMean forecastVals).map
      fun fa => decide (fa > avg_kwh * (11 / 10))).getD false) = false :=
    Bool.eq_false_iff.mpr h1
  simp only [generate_recommendations, e1]
  rw [if_neg (by simp)]
  rw [if_neg (show ¬ anomalyCount > 0 by omega)]
  cases hre : colMean (fullIkw.drop (fullIkw.length - 24)) with
  | none => rfl
  | some re =>
    have hle : ¬ re > effThreshold := by
      intro hgt
      apply h2
      rw [hre]
      simpa using hgt
    simp only [if_neg hle]

/-- Counterexample to C5 as stated: at a concrete input on which none of
the three rules fires, the engine emits its three baseline findings — a
list of length 3, not "exactly one" stable finding. -/
theorem recommendations_counterexample :
    ¬ recRulesFire 1 [some 1] [some 1] 0 (6 / 5)
    ∧ (generate_recommendations 1 [some 1] [some 1] 0 (6 / 5)).length ≠ 1 := by
  constructor
  · unfold recRulesFire
    with_unfolding_all decide
  · with_unfolding_all decide

/-! ## Claim theorems: degenerate correlations (C4) -/

lemma meanD_singleton (x : ℚ) : meanD [x] = x := by
  unfold meanD
  simp

/-- C4 (amended): when there are fewer than 2 pairwise-complete rows or
either series has zero variance over them, the Pearson correlation the
pipeline stores is the `NaN` marker (what the float division `0/0`
produces) — never an exception, but also not the value `0.0`. -/
theorem corr_degenerate_is_nan (xs ys : List (Option ℚ))
    (h : (corrPairs xs ys).length < 2 ∨ corrSxx xs ys = 0 ∨ corrSyy xs ys = 0) :
    corrKwh xs ys = none := by
  simp only [corrKwh]
  by_cases h0 : (corrPairs xs ys).length = 0
  · rw [if_pos h0]
  · rw [if_neg h0]
    rcases h with hlen | hxx | hyy
    · cases hp : corrPairs xs ys with
      | nil => exact absurd (by rw [hp]; rfl) h0
      | cons a t =>
        cases t with
        | nil =>
          rw [if_pos]
          left
          simp only [corrSxx, hp]
          simp only [List.map_cons, List.map_nil, List.sum_cons, List.sum_nil,
            meanD_singleton]
          ring
        | cons b t2 =>
          rw [hp] at hlen
          simp only [List.length_cons] at hlen
          omega
    · rw [if_pos (Or.inl hxx)]
    · rw [if_pos (Or.inr hyy)]

/-- Witness for the amended C4 at concrete zero-variance columns. -/
theorem corr_degenerate_is_nan_witness :
    corrKwh [some 5, some 5, some 5] [some 1, some 2, some 4] = none :=
  corr_degenerate_is_nan [some 5, some 5, some 5] [some 1, some 2, some 4]
    (Or.inr (Or.inl (by with_unfolding_all decide)))

/-- Counterexample to C4 as stated: on a concrete cleaned frame whose
energy column is constant (zero variance), the Correlation Set entry for
`ambient_temp` is the `NaN` marker `none`, not the claimed neutral value
`0.0` (pandas `corr` yields `NaN` there, and the pipeline stores it
verbatim). -/
theorem corr_degenerate_counterexample :
    Except.map (fun res => res.correlations.lookup ("ambient_temp")) (analyze_data stableSort constRaw)
      = .ok (some none)
    ∧ corrSxx (constEnergyFrame.kwh.getD []) (constEnergyFrame.ambient_temp.getD []) = 0
    ∧ (computeCorrelations constEnergyFrame).lookup ("ambient_temp") = some none := by
  refine ⟨?_, ?_, ?_⟩ <;> with_unfolding_all decide

/-- Witness for the amended C5 at a concrete input on which no rule fires. -/
theorem recommendations_never_empty_witness :
    generate_recommendations 1 [some 1] [some 1] 0 (6 / 5)
      = [Rec.forecastBaseline, Rec.efficiencyOk (some 1), Rec.noAnomalies] := by
  have h := (recommendations_never_empty 1 [some 1] [some 1] 0 (6 / 5)).2.2
  have h2 := h (by unfold recRulesFire; with_unfolding_all decide)
  refine h2.trans ?_
  with_unfolding_all decide

end HVAC
